import Mathlib

/-!
Verification of the DocumentDB stored-procedure layer:
the `update` stored procedure (update.ts, registered through
UpdateStoredProcedure.ts) and the `bulkDelete` stored procedure
(BulkDeleteStoredProcedure.ts).

Documents are modelled as association lists of JSON-like values; the
store is modelled abstractly by the pages its id-query returns, by
acceptance flags for the query/replace steps (the execution budget), and
by the collection contents.  Store-level query/replace errors are
modelled by boolean flags; the store is otherwise deterministic.
-/

namespace DocDb

/-- JSON-like values stored in document fields. -/
inductive Value where
  | null : Value
  | boolean (b : Bool) : Value
  | num (n : Int) : Value
  | str (s : String) : Value
  | arr (elems : List Value) : Value

/-- A document's dynamic properties: an insertion-ordered map from field
name to value, as a JavaScript object. -/
abbrev Fields := List (String × Value)

/-- Property read `document[f]`: `none` models JavaScript `undefined`. -/
def getField : Fields → String → Option Value
  | [], _ => none
  | (g, w) :: rest, f => if g = f then some w else getField rest f

/-- Property write `document[f] = v`: overwrite in place, append if new
(JavaScript object key order). -/
def setField : Fields → String → Value → Fields
  | [], f, v => [(f, v)]
  | (g, w) :: rest, f, v =>
    if g = f then (f, v) :: rest else (g, w) :: setField rest f v

/-- `Array.isArray(document[f])` on the result of a property read. -/
def isArray : Option Value → Bool
  | some (Value.arr _) => true
  | _ => false

/-- A stored document: its `_self` link plus its dynamic properties. -/
structure Doc where
  self : String
  fields : Fields

/-- The `IUpdateCommands` shape: four optional operator groups, each an
ordered field-to-value mapping (`Object.keys` order = list order).
`none` models an absent / null group. -/
structure UpdateCommands where
  setCmd : Option Fields
  popCmd : Option Fields
  pushCmd : Option Fields
  unshiftCmd : Option Fields

/-- Keys of an operator group (`Object.keys(update.$op)`). -/
def groupKeys (g : Option Fields) : List String :=
  (g.getD []).map Prod.fst

/-- Loop body of the `$set` operator (update.ts, `set`): overwrite or
create each listed field. -/
def setLoop : Fields → Fields → Fields
  | [], doc => doc
  | (f, v) :: rest, doc => setLoop rest (setField doc f v)

/-- The `$set` operator (update.ts, `set`). -/
def setOp (doc : Fields) : Option Fields → Fields
  | none => doc
  | some g => setLoop g doc

/-- Loop body of the `$pop` operator as implemented in update.ts:
the field must hold an array, and the LAST element is removed
(`document[field].pop()`); the configured value is never consulted. -/
def popLoop : Fields → Fields → Except String Fields
  | [], doc => Except.ok doc
  | (f, _) :: rest, doc =>
    match getField doc f with
    | some (Value.arr xs) => popLoop rest (setField doc f (Value.arr xs.dropLast))
    | _ => Except.error "Bad $pop parameter - field in document must be an array."

/-- The `$pop` operator (update.ts, `pop`). -/
def popOp (doc : Fields) : Option Fields → Except String Fields
  | none => Except.ok doc
  | some g => popLoop g doc

/-- JavaScript test `update.$pop[field] < 0` (non-numeric values compare
false). -/
def isNegative : Value → Bool
  | Value.num n => decide (n < 0)
  | _ => false

/-- Loop body of the `$pop` operator as implemented by the `updateProc`
copy inside BulkDeleteStoredProcedure.ts: a negative configured value
removes the FIRST element (`shift()`), otherwise the last (`pop()`). -/
def popLoopLegacy : Fields → Fields → Except String Fields
  | [], doc => Except.ok doc
  | (f, v) :: rest, doc =>
    match getField doc f with
    | some (Value.arr xs) =>
      popLoopLegacy rest
        (setField doc f (Value.arr (if isNegative v then xs.tail else xs.dropLast)))
    | _ => Except.error "Bad $pop parameter - field in document must be an array."

/-- Loop body of the `$push` operator (update.ts, `push`): the field must
hold an array; the given value is appended. -/
def pushLoop : Fields → Fields → Except String Fields
  | [], doc => Except.ok doc
  | (f, v) :: rest, doc =>
    match getField doc f with
    | some (Value.arr xs) => pushLoop rest (setField doc f (Value.arr (xs ++ [v])))
    | _ => Except.error "Bad $push parameter - field in document must be an array."

/-- The `$push` operator (update.ts, `push`). -/
def pushOp (doc : Fields) : Option Fields → Except String Fields
  | none => Except.ok doc
  | some g => pushLoop g doc

/-- Loop body of the `$unshift` operator (update.ts, `unshift`): the field
must hold an array; the given value is prepended. -/
def unshiftLoop : Fields → Fields → Except String Fields
  | [], doc => Except.ok doc
  | (f, v) :: rest, doc =>
    match getField doc f with
    | some (Value.arr xs) => unshiftLoop rest (setField doc f (Value.arr (v :: xs)))
    | _ => Except.error "Bad $unshift parameter - field in document must be an array."

/-- The `$unshift` operator (update.ts, `unshift`). -/
def unshiftOp (doc : Fields) : Option Fields → Except String Fields
  | none => Except.ok doc
  | some g => unshiftLoop g doc

/-- The operator sequence of `tryUpdate` (update.ts lines 62-65):
`$set`, then `$pop`, then `$push`, then `$unshift`. -/
def applyOperators (doc : Fields) (c : UpdateCommands) : Except String Fields := do
  let d1 := setOp doc c.setCmd
  let d2 ← popOp d1 c.popCmd
  let d3 ← pushOp d2 c.pushCmd
  unshiftOp d3 c.unshiftCmd

/-- One page of an id-query result: its rows and the continuation token
the store attached to the page (if any). -/
structure QueryPage where
  rows : List Doc
  continuation : Option String

/-- Abstract store behaviour observed by one `updateFunc` invocation. -/
structure UpdateStore where
  /-- Successive pages the store would return for the id query. -/
  pages : List QueryPage
  /-- Whether the store accepts the query step (execution budget). -/
  queryAccepted : Bool
  /-- Whether the query callback reports a store error. -/
  queryError : Bool
  /-- Whether the store accepts the replace step (execution budget). -/
  replaceAccepted : Bool
  /-- Whether the replace callback reports a store error (in particular
  the etag version-precondition conflict). -/
  replaceError : Bool
  /-- Fresh version token the store assigns on a successful replace. -/
  newEtag : Value
  /-- Current collection contents. -/
  col : List Doc

/-- The first page the store returns for the id query. -/
def firstPage (s : UpdateStore) : QueryPage :=
  s.pages.headD ⟨[], none⟩

/-- Errors `updateFunc` can throw. -/
inductive UpdateError where
  | validation : UpdateError
  | timeout : UpdateError
  | notFound : UpdateError
  | opError (msg : String) : UpdateError
  | storeError : UpdateError

/-- Store calls issued by one invocation. -/
inductive StoreOp where
  | query : StoreOp
  | replace : StoreOp

/-- What one `updateFunc` invocation produced: its result (the response
body on success, the thrown error on failure), the collection contents
afterwards, and the store calls it issued. -/
structure UpdateOutcome where
  result : Except UpdateError Doc
  col : List Doc
  ops : List StoreOp

/-- On a successful replace the store stamps the document with a fresh
version token (`_etag`). -/
def bump (s : UpdateStore) (self : String) (nf : Fields) : Doc :=
  ⟨self, setField nf "_etag" s.newEtag⟩

/-- `replaceDocument(selfLink, newDoc)`: rewrite the document at the
given self link. -/
def replaceBySelf : List Doc → String → Doc → List Doc
  | [], _, _ => []
  | x :: xs, self, nd =>
    if x.self = self then nd :: xs else x :: replaceBySelf xs self nd

/-- `tryUpdate` (update.ts lines 56-80): apply the operators to the found
document, then conditionally replace it. -/
def tryUpdate (s : UpdateStore) (c : UpdateCommands) (d : Doc) : UpdateOutcome :=
  match applyOperators d.fields c with
  | Except.error msg => ⟨Except.error (UpdateError.opError msg), s.col, [StoreOp.query]⟩
  | Except.ok nf =>
    if s.replaceAccepted then
      if s.replaceError then
        ⟨Except.error UpdateError.storeError, s.col, [StoreOp.query, StoreOp.replace]⟩
      else
        let nd := bump s d.self nf
        ⟨Except.ok nd, replaceBySelf s.col d.self nd, [StoreOp.query, StoreOp.replace]⟩
    else ⟨Except.error UpdateError.timeout, s.col, [StoreOp.query, StoreOp.replace]⟩

/-- `updateFunc` (update.ts): validate the arguments, query for the
document by id (a single query; the page's continuation token is not
consulted), and update the first row found. An empty id models the
falsy-id check `!id`; `none` commands model `!updateCommands`. -/
def updateFunc (s : UpdateStore) (i : String) (cmds : Option UpdateCommands) :
    UpdateOutcome :=
  if i = "" then ⟨Except.error UpdateError.validation, s.col, []⟩
  else
    match cmds with
    | none => ⟨Except.error UpdateError.validation, s.col, []⟩
    | some c =>
      if s.queryAccepted then
        if s.queryError then ⟨Except.error UpdateError.storeError, s.col, [StoreOp.query]⟩
        else
          match (firstPage s).rows with
          | d :: _ => tryUpdate s c d
          | [] => ⟨Except.error UpdateError.notFound, s.col, [StoreOp.query]⟩
      else ⟨Except.error UpdateError.timeout, s.col, [StoreOp.query]⟩

/-- Result of one `bulkDelete` invocation: the collection contents
afterwards, the deletion counter, and the response body (`some n` iff
`setBody({deleted: n})` was called). -/
structure BulkOutcome where
  col : List Doc
  deleted : Nat
  response : Option Nat

/-- `deleteDocument(selfLink)`: remove the document at the self link. -/
def deleteBySelf : List Doc → String → List Doc
  | [], _ => []
  | x :: xs, self => if x.self = self then xs else x :: deleteBySelf xs self

/-- `tryDelete` (BulkDeleteStoredProcedure.ts lines 41-59): delete the
queued documents one at a time. Each accepted delete consumes one unit
of budget; a not-accepted delete sets the response body to the current
count. When the queue is exhausted the function returns without
re-querying and without setting the response body (the source's `else`
branch is missing). -/
def tryDelete : List Doc → List Doc → Nat → Nat → BulkOutcome
  | [], col, deleted, _ => ⟨col, deleted, none⟩
  | d :: rest, col, deleted, budget =>
    if budget = 0 then ⟨col, deleted, some deleted⟩
    else tryDelete rest (deleteBySelf col d.self) (deleted + 1) (budget - 1)

/-- `tryQueryAndDelete` (BulkDeleteStoredProcedure.ts lines 16-39): query
all documents (modelled as one page holding the whole collection); if the
query is not accepted, or returns zero rows, set the response body;
otherwise start deleting the returned rows. The budget is the number of
store operations the invocation may still issue. -/
def tryQueryAndDelete (col : List Doc) (budget : Nat) : BulkOutcome :=
  if budget = 0 then ⟨col, 0, some 0⟩
  else
    match col with
    | [] => ⟨col, 0, some 0⟩
    | d :: rest => tryDelete (d :: rest) col 0 (budget - 1)

/-- The `bulkDelete` stored procedure body. -/
def bulkDelete (col : List Doc) (budget : Nat) : BulkOutcome :=
  tryQueryAndDelete col budget

/-! ### Concrete example data -/

/-- The spec's example document `{id:"1", key:"test", tags:["a","b","c"]}`. -/
def docABC : Doc :=
  ⟨"selfA", [("id", Value.str "1"), ("key", Value.str "test"),
    ("tags", Value.arr [Value.str "a", Value.str "b", Value.str "c"])]⟩

/-- A document without a `tags` field. -/
def docNoTags : Doc := ⟨"selfB", [("id", Value.str "2"), ("key", Value.str "k2")]⟩

/-- A document whose `tags` field is an empty array. -/
def docEmptyTags : Doc :=
  ⟨"selfC", [("id", Value.str "3"), ("tags", Value.arr [])]⟩

/-- A store that accepts every step and reports no errors. -/
def okStore (p : List QueryPage) (col : List Doc) : UpdateStore :=
  ⟨p, true, false, true, false, Value.str "etag2", col⟩

/-- Store holding the spec's example document, found on the first page. -/
def store1 : UpdateStore := okStore [⟨[docABC], none⟩] [docABC]

/-- Store holding `docNoTags`, found on the first page. -/
def store3 : UpdateStore := okStore [⟨[docNoTags], none⟩] [docNoTags]

/-- Store whose first id-query page has zero rows but a continuation
token, and whose second page holds the document. -/
def store4 : UpdateStore :=
  okStore [⟨[], some "tok"⟩, ⟨[docABC], none⟩] [docABC]

/-- Store holding `docEmptyTags`, found on the first page. -/
def storeEmptyTags : UpdateStore := okStore [⟨[docEmptyTags], none⟩] [docEmptyTags]

/-- The command set `{$pop: {tags: -1}}`. -/
def cmdsPopNeg : UpdateCommands := ⟨none, some [("tags", Value.num (-1))], none, none⟩

/-- An empty command set `{}`. -/
def noCmds : UpdateCommands := ⟨none, none, none, none⟩

/-- `{$set:{tags:[]}, $push:{tags:"c"}}`: `$set` creates the array a
later operator acts upon. -/
def cmdsSetThenPush : UpdateCommands :=
  ⟨some [("tags", Value.arr [])], none, some [("tags", Value.str "c")], none⟩

/-- `{$push:{key:"x"}}`: `$push` on a non-array field. -/
def cmdsPushKey : UpdateCommands := ⟨none, none, some [("key", Value.str "x")], none⟩

/-- `{$push:{tags:"d"}}`. -/
def cmdsPushTags : UpdateCommands := ⟨none, none, some [("tags", Value.str "d")], none⟩

/-- The document produced by running `{$push:{tags:"d"}}` on `docABC`
and stamping the fresh version token. -/
def docABCPushed : Doc :=
  ⟨"selfA", [("id", Value.str "1"), ("key", Value.str "test"),
    ("tags", Value.arr [Value.str "a", Value.str "b", Value.str "c", Value.str "d"]),
    ("_etag", Value.str "etag2")]⟩

/-- Three distinct documents for bulk-delete runs. -/
def bulkDocs : List Doc :=
  [⟨"s1", [("id", Value.str "1")]⟩, ⟨"s2", [("id", Value.str "2")]⟩,
   ⟨"s3", [("id", Value.str "3")]⟩]

/-! ### Field-map lemmas -/

theorem getField_setField_self (d : Fields) (f : String) (v : Value) :
    getField (setField d f v) f = some v := by
  induction d with
  | nil => simp [setField, getField]
  | cons hd rest ih =>
    obtain ⟨k, w⟩ := hd
    by_cases hk : k = f
    · simp [setField, hk, getField]
    · simp [setField, hk, getField, ih]

theorem getField_setField_ne (d : Fields) (f g : String) (v : Value) (h : g ≠ f) :
    getField (setField d f v) g = getField d g := by
  induction d with
  | nil => simp [setField, getField, Ne.symm h]
  | cons hd rest ih =>
    obtain ⟨k, w⟩ := hd
    by_cases hk : k = f
    · subst hk
      simp [setField, getField, Ne.symm h]
    · simp [setField, hk, getField, ih]

theorem setLoop_preserve (g : Fields) (f : String) :
    ∀ d : Fields, f ∉ g.map Prod.fst → getField (setLoop g d) f = getField d f := by
  induction g with
  | nil => intro d _; rfl
  | cons hd rest ih =>
    intro d hmem
    obtain ⟨k, v⟩ := hd
    simp only [List.map_cons, List.mem_cons] at hmem
    push_neg at hmem
    rw [setLoop, ih _ hmem.2, getField_setField_ne _ _ _ _ hmem.1]

/-! ### Operator-loop lemmas -/

theorem popLoop_preserve (g : Fields) (f : String) :
    ∀ d d' : Fields, popLoop g d = Except.ok d' → f ∉ g.map Prod.fst →
      getField d' f = getField d f := by
  induction g with
  | nil =>
    intro d d' h _
    simp only [popLoop] at h
    cases h; rfl
  | cons hd rest ih =>
    intro d d' h hmem
    obtain ⟨k, v⟩ := hd
    simp only [List.map_cons, List.mem_cons] at hmem
    push_neg at hmem
    rcases hk : getField d k with _ | w
    · simp [popLoop, hk] at h
    · cases w with
      | arr xs =>
        simp only [popLoop, hk] at h
        rw [ih _ _ h hmem.2, getField_setField_ne _ _ _ _ hmem.1]
      | null => simp [popLoop, hk] at h
      | boolean b => simp [popLoop, hk] at h
      | num n => simp [popLoop, hk] at h
      | str s => simp [popLoop, hk] at h

theorem popLoop_preserve_nonarray (g : Fields) (f : String) :
    ∀ d d' : Fields, popLoop g d = Except.ok d' → isArray (getField d f) = false →
      getField d' f = getField d f := by
  induction g with
  | nil =>
    intro d d' h _
    simp only [popLoop] at h
    cases h; rfl
  | cons hd rest ih =>
    intro d d' h hna
    obtain ⟨k, v⟩ := hd
    rcases hk : getField d k with _ | w
    · simp [popLoop, hk] at h
    · cases w with
      | arr xs =>
        simp only [popLoop, hk] at h
        have hfk : f ≠ k := by
          intro e; subst e
          rw [hk] at hna
          simp [isArray] at hna
        have hna2 : isArray (getField (setField d k (Value.arr xs.dropLast)) f) = false := by
          rw [getField_setField_ne _ _ _ _ hfk, hna]
        rw [ih _ _ h hna2, getField_setField_ne _ _ _ _ hfk]
      | null => simp [popLoop, hk] at h
      | boolean b => simp [popLoop, hk] at h
      | num n => simp [popLoop, hk] at h
      | str s => simp [popLoop, hk] at h

theorem popLoop_error_of_nonarray (g : Fields) (f : String) :
    ∀ d : Fields, f ∈ g.map Prod.fst → isArray (getField d f) = false →
      popLoop g d = Except.error "Bad $pop parameter - field in document must be an array." := by
  induction g with
  | nil => intro d hmem _; simp at hmem
  | cons hd rest ih =>
    intro d hmem hna
    obtain ⟨k, v⟩ := hd
    rcases hk : getField d k with _ | w
    · simp [popLoop, hk]
    · cases w with
      | arr xs =>
        have hfk : f ≠ k := by
          intro e; subst e
          rw [hk] at hna
          simp [isArray] at hna
        simp only [List.map_cons, List.mem_cons] at hmem
        rcases hmem with hmem | hmem
        · exact absurd hmem hfk
        · simp only [popLoop, hk]
          exact ih _ hmem (by rw [getField_setField_ne _ _ _ _ hfk, hna])
      | null => simp [popLoop, hk]
      | boolean b => simp [popLoop, hk]
      | num n => simp [popLoop, hk]
      | str s => simp [popLoop, hk]

theorem pushLoop_preserve (g : Fields) (f : String) :
    ∀ d d' : Fields, pushLoop g d = Except.ok d' → f ∉ g.map Prod.fst →
      getField d' f = getField d f := by
  induction g with
  | nil =>
    intro d d' h _
    simp only [pushLoop] at h
    cases h; rfl
  | cons hd rest ih =>
    intro d d' h hmem
    obtain ⟨k, v⟩ := hd
    simp only [List.map_cons, List.mem_cons] at hmem
    push_neg at hmem
    rcases hk : getField d k with _ | w
    · simp [pushLoop, hk] at h
    · cases w with
      | arr xs =>
        simp only [pushLoop, hk] at h
        rw [ih _ _ h hmem.2, getField_setField_ne _ _ _ _ hmem.1]
      | null => simp [pushLoop, hk] at h
      | boolean b => simp [pushLoop, hk] at h
      | num n => simp [pushLoop, hk] at h
      | str s => simp [pushLoop, hk] at h

theorem pushLoop_preserve_nonarray (g : Fields) (f : String) :
    ∀ d d' : Fields, pushLoop g d = Except.ok d' → isArray (getField d f) = false →
      getField d' f = getField d f := by
  induction g with
  | nil =>
    intro d d' h _
    simp only [pushLoop] at h
    cases h; rfl
  | cons hd rest ih =>
    intro d d' h hna
    obtain ⟨k, v⟩ := hd
    rcases hk : getField d k with _ | w
    · simp [pushLoop, hk] at h
    · cases w with
      | arr xs =>
        simp only [pushLoop, hk] at h
        have hfk : f ≠ k := by
          intro e; subst e
          rw [hk] at hna
          simp [isArray] at hna
        have hna2 : isArray (getField (setField d k (Value.arr (xs ++ [v]))) f) = false := by
          rw [getField_setField_ne _ _ _ _ hfk, hna]
        rw [ih _ _ h hna2, getField_setField_ne _ _ _ _ hfk]
      | null => simp [pushLoop, hk] at h
      | boolean b => simp [pushLoop, hk] at h
      | num n => simp [pushLoop, hk] at h
      | str s => simp [pushLoop, hk] at h

theorem pushLoop_error_of_nonarray (g : Fields) (f : String) :
    ∀ d : Fields, f ∈ g.map Prod.fst → isArray (getField d f) = false →
      pushLoop g d = Except.error "Bad $push parameter - field in document must be an array." := by
  induction g with
  | nil => intro d hmem _; simp at hmem
  | cons hd rest ih =>
    intro d hmem hna
    obtain ⟨k, v⟩ := hd
    rcases hk : getField d k with _ | w
    · simp [pushLoop, hk]
    · cases w with
      | arr xs =>
        have hfk : f ≠ k := by
          intro e; subst e
          rw [hk] at hna
          simp [isArray] at hna
        simp only [List.map_cons, List.mem_cons] at hmem
        rcases hmem with hmem | hmem
        · exact absurd hmem hfk
        · simp only [pushLoop, hk]
          exact ih _ hmem (by rw [getField_setField_ne _ _ _ _ hfk, hna])
      | null => simp [pushLoop, hk]
      | boolean b => simp [pushLoop, hk]
      | num n => simp [pushLoop, hk]
      | str s => simp [pushLoop, hk]

theorem unshiftLoop_preserve (g : Fields) (f : String) :
    ∀ d d' : Fields, unshiftLoop g d = Except.ok d' → f ∉ g.map Prod.fst →
      getField d' f = getField d f := by
  induction g with
  | nil =>
    intro d d' h _
    simp only [unshiftLoop] at h
    cases h; rfl
  | cons hd rest ih =>
    intro d d' h hmem
    obtain ⟨k, v⟩ := hd
    simp only [List.map_cons, List.mem_cons] at hmem
    push_neg at hmem
    rcases hk : getField d k with _ | w
    · simp [unshiftLoop, hk] at h
    · cases w with
      | arr xs =>
        simp only [unshiftLoop, hk] at h
        rw [ih _ _ h hmem.2, getField_setField_ne _ _ _ _ hmem.1]
      | null => simp [unshiftLoop, hk] at h
      | boolean b => simp [unshiftLoop, hk] at h
      | num n => simp [unshiftLoop, hk] at h
      | str s => simp [unshiftLoop, hk] at h

theorem unshiftLoop_error_of_nonarray (g : Fields) (f : String) :
    ∀ d : Fields, f ∈ g.map Prod.fst → isArray (getField d f) = false →
      unshiftLoop g d = Except.error "Bad $unshift parameter - field in document must be an array." := by
  induction g with
  | nil => intro d hmem _; simp at hmem
  | cons hd rest ih =>
    intro d hmem hna
    obtain ⟨k, v⟩ := hd
    rcases hk : getField d k with _ | w
    · simp [unshiftLoop, hk]
    · cases w with
      | arr xs =>
        have hfk : f ≠ k := by
          intro e; subst e
          rw [hk] at hna
          simp [isArray] at hna
        simp only [List.map_cons, List.mem_cons] at hmem
        rcases hmem with hmem | hmem
        · exact absurd hmem hfk
        · simp only [unshiftLoop, hk]
          exact ih _ hmem (by rw [getField_setField_ne _ _ _ _ hfk, hna])
      | null => simp [unshiftLoop, hk]
      | boolean b => simp [unshiftLoop, hk]
      | num n => simp [unshiftLoop, hk]
      | str s => simp [unshiftLoop, hk]

theorem unshiftLoop_mem (g : Fields) :
    ∀ (d d' : Fields) (f : String) (v : Value) (xs : List Value),
      (g.map Prod.fst).Nodup → (f, v) ∈ g → getField d f = some (Value.arr xs) →
      unshiftLoop g d = Except.ok d' → getField d' f = some (Value.arr (v :: xs)) := by
  induction g with
  | nil => intro d d' f v xs _ hmem _ _; simp at hmem
  | cons hd rest ih =>
    intro d d' f v xs hnd hmem hf h
    obtain ⟨k, w⟩ := hd
    simp only [List.map_cons, List.nodup_cons] at hnd
    rcases List.mem_cons.mp hmem with heq | hmem2
    · cases heq
      simp only [unshiftLoop, hf] at h
      rw [unshiftLoop_preserve rest f _ _ h hnd.1, getField_setField_self]
    · have hfk : f ≠ k := by
        intro e; subst e
        exact hnd.1 (List.mem_map.mpr ⟨(f, v), hmem2, rfl⟩)
      rcases hk : getField d k with _ | w2
      · simp [unshiftLoop, hk] at h
      · cases w2 with
        | arr ys =>
          simp only [unshiftLoop, hk] at h
          exact ih _ _ _ _ _ hnd.2 hmem2
            (by rw [getField_setField_ne _ _ _ _ hfk]; exact hf) h
        | null => simp [unshiftLoop, hk] at h
        | boolean b => simp [unshiftLoop, hk] at h
        | num n => simp [unshiftLoop, hk] at h
        | str s => simp [unshiftLoop, hk] at h

/-! ### Plumbing lemmas for updateFunc -/

theorem updateFunc_query_ok (s : UpdateStore) (i : String) (c : UpdateCommands)
    (d : Doc) (rest : List Doc)
    (hi : i ≠ "") (hqa : s.queryAccepted = true) (hqe : s.queryError = false)
    (hrows : (firstPage s).rows = d :: rest) :
    updateFunc s i (some c) = tryUpdate s c d := by
  simp [updateFunc, hi, hqa, hqe, hrows]

theorem tryUpdate_ok (s : UpdateStore) (c : UpdateCommands) (d : Doc) (nf : Fields)
    (ha : applyOperators d.fields c = Except.ok nf)
    (hra : s.replaceAccepted = true) (hre : s.replaceError = false) :
    tryUpdate s c d = ⟨Except.ok (bump s d.self nf),
      replaceBySelf s.col d.self (bump s d.self nf), [StoreOp.query, StoreOp.replace]⟩ := by
  simp [tryUpdate, ha, hra, hre]

theorem applyOperators_ok_iff (d : Fields) (c : UpdateCommands) (nf : Fields) :
    applyOperators d c = Except.ok nf ↔
      ∃ f2 f3, popOp (setOp d c.setCmd) c.popCmd = Except.ok f2 ∧
        pushOp f2 c.pushCmd = Except.ok f3 ∧ unshiftOp f3 c.unshiftCmd = Except.ok nf := by
  unfold applyOperators
  cases h2 : popOp (setOp d c.setCmd) c.popCmd with
  | error msg => simp [h2, Bind.bind, Except.bind]
  | ok f2 =>
    cases h3 : pushOp f2 c.pushCmd with
    | error msg => simp [h2, h3, Bind.bind, Except.bind]
    | ok f3 => simp [h2, h3, Bind.bind, Except.bind]

theorem updateFunc_error_col (s : UpdateStore) (i : String) (cmds : Option UpdateCommands)
    (e : UpdateError) (h : (updateFunc s i cmds).result = Except.error e) :
    (updateFunc s i cmds).col = s.col := by
  by_cases hi : i = ""
  · simp [updateFunc, hi]
  · cases cmds with
    | none => simp [updateFunc, hi]
    | some c =>
      by_cases hqa : s.queryAccepted = true
      · by_cases hqe : s.queryError = true
        · simp [updateFunc, hi, hqa, hqe]
        · rcases hrows : (firstPage s).rows with _ | ⟨d, rest⟩
          · simp [updateFunc, hi, hqa, hqe, hrows]
          · have hred : updateFunc s i (some c) = tryUpdate s c d := by
              simp [updateFunc, hi, hqa, Bool.eq_false_iff.mpr hqe, hrows]
            rw [hred] at h ⊢
            cases ha : applyOperators d.fields c with
            | error msg => simp [tryUpdate, ha]
            | ok nf =>
              by_cases hra : s.replaceAccepted = true
              · by_cases hre : s.replaceError = true
                · simp [tryUpdate, ha, hra, hre]
                · simp [tryUpdate, ha, hra, Bool.eq_false_iff.mpr hre] at h
              · simp [tryUpdate, ha, Bool.eq_false_iff.mpr hra]
      · simp [updateFunc, hi, Bool.eq_false_iff.mpr hqa]

theorem updateFunc_ok_inv (s : UpdateStore) (i : String) (c : UpdateCommands)
    (d : Doc) (rest : List Doc) (nd : Doc)
    (hi : i ≠ "") (hqa : s.queryAccepted = true) (hqe : s.queryError = false)
    (hrows : (firstPage s).rows = d :: rest)
    (h : (updateFunc s i (some c)).result = Except.ok nd) :
    ∃ nf, applyOperators d.fields c = Except.ok nf ∧ nd = bump s d.self nf ∧
      (updateFunc s i (some c)).col = replaceBySelf s.col d.self nd := by
  rw [updateFunc_query_ok s i c d rest hi hqa hqe hrows] at h ⊢
  cases ha : applyOperators d.fields c with
  | error msg => simp [tryUpdate, ha] at h
  | ok nf =>
    by_cases hra : s.replaceAccepted = true
    · by_cases hre : s.replaceError = true
      · simp [tryUpdate, ha, hra, hre] at h
      · have hre2 : s.replaceError = false := Bool.eq_false_iff.mpr hre
        have hnd : nd = bump s d.self nf := by
          simp [tryUpdate, ha, hra, hre2] at h
          exact h.symm
        exact ⟨nf, rfl, hnd, by simp [tryUpdate, ha, hra, hre2, hnd]⟩
    · simp [tryUpdate, ha, Bool.eq_false_iff.mpr hra] at h

theorem applyOperators_error_of_nonarray (d : Fields) (c : UpdateCommands) (f : String)
    (hmem : f ∈ groupKeys c.popCmd ++ groupKeys c.pushCmd ++ groupKeys c.unshiftCmd)
    (hna : isArray (getField (setOp d c.setCmd) f) = false) :
    ∃ msg, applyOperators d c = Except.error msg := by
  rcases List.mem_append.mp hmem with hmem2 | hunshift
  · rcases List.mem_append.mp hmem2 with hpop | hpush
    · cases hc : c.popCmd with
      | none => simp [groupKeys, hc] at hpop
      | some g =>
        have herr := popLoop_error_of_nonarray g f (setOp d c.setCmd)
          (by simpa [groupKeys, hc] using hpop) hna
        refine ⟨"Bad $pop parameter - field in document must be an array.", ?_⟩
        simp [applyOperators, popOp, hc, herr, Bind.bind, Except.bind]
    · cases h2 : popOp (setOp d c.setCmd) c.popCmd with
      | error msg =>
        exact ⟨msg, by simp [applyOperators, h2, Bind.bind, Except.bind]⟩
      | ok f2 =>
        have hna2 : isArray (getField f2 f) = false := by
          cases hc : c.popCmd with
          | none =>
            rw [hc] at h2
            simp only [popOp] at h2
            cases h2
            exact hna
          | some g =>
            rw [hc] at h2
            simp only [popOp] at h2
            rw [popLoop_preserve_nonarray g f _ _ h2 hna]
            exact hna
        cases hc2 : c.pushCmd with
        | none => simp [groupKeys, hc2] at hpush
        | some g2 =>
          have herr := pushLoop_error_of_nonarray g2 f f2
            (by simpa [groupKeys, hc2] using hpush) hna2
          refine ⟨"Bad $push parameter - field in document must be an array.", ?_⟩
          simp [applyOperators, h2, pushOp, hc2, herr, Bind.bind, Except.bind]
  · cases h2 : popOp (setOp d c.setCmd) c.popCmd with
    | error msg =>
      exact ⟨msg, by simp [applyOperators, h2, Bind.bind, Except.bind]⟩
    | ok f2 =>
      have hna2 : isArray (getField f2 f) = false := by
        cases hc : c.popCmd with
        | none =>
          rw [hc] at h2
          simp only [popOp] at h2
          cases h2
          exact hna
        | some g =>
          rw [hc] at h2
          simp only [popOp] at h2
          rw [popLoop_preserve_nonarray g f _ _ h2 hna]
          exact hna
      cases h3 : pushOp f2 c.pushCmd with
      | error msg =>
        exact ⟨msg, by simp [applyOperators, h2, h3, Bind.bind, Except.bind]⟩
      | ok f3 =>
        have hna3 : isArray (getField f3 f) = false := by
          cases hc2 : c.pushCmd with
          | none =>
            rw [hc2] at h3
            simp only [pushOp] at h3
            cases h3
            exact hna2
          | some g2 =>
            rw [hc2] at h3
            simp only [pushOp] at h3
            rw [pushLoop_preserve_nonarray g2 f _ _ h3 hna2]
            exact hna2
        cases hc3 : c.unshiftCmd with
        | none => simp [groupKeys, hc3] at hunshift
        | some g3 =>
          have herr := unshiftLoop_error_of_nonarray g3 f f3
            (by simpa [groupKeys, hc3] using hunshift) hna3
          refine ⟨"Bad $unshift parameter - field in document must be an array.", ?_⟩
          simp [applyOperators, h2, h3, unshiftOp, hc3, herr, Bind.bind, Except.bind]

/-! ### Collection lemmas -/

theorem replaceBySelf_split (col : List Doc) (self : String) (nd : Doc) :
    self ∈ col.map Doc.self →
    ∃ pre old post, col = pre ++ old :: post ∧ old.self = self ∧
      self ∉ pre.map Doc.self ∧
      replaceBySelf col self nd = pre ++ nd :: post := by
  induction col with
  | nil => intro h; simp at h
  | cons x xs ih =>
    intro h
    by_cases hx : x.self = self
    · exact ⟨[], x, xs, by simp, hx, by simp, by simp [replaceBySelf, hx]⟩
    · have hmem : self ∈ xs.map Doc.self := by
        simp only [List.map_cons, List.mem_cons] at h
        rcases h with h | h
        · exact absurd h.symm hx
        · exact h
      obtain ⟨pre, old, post, he, hself, hpre, hrep⟩ := ih hmem
      refine ⟨x :: pre, old, post, ?_, hself, ?_, ?_⟩
      · simp [he]
      · simp only [List.map_cons, List.mem_cons]
        push_neg
        exact ⟨fun e => hx e.symm, hpre⟩
      · simp [replaceBySelf, hx, hrep]

theorem tryDelete_budget (queue : List Doc) :
    ∀ deleted b, b < queue.length →
      tryDelete queue queue deleted b = ⟨queue.drop b, deleted + b, some (deleted + b)⟩ := by
  induction queue with
  | nil => intro deleted b h; simp at h
  | cons d rest ih =>
    intro deleted b h
    cases b with
    | zero => simp [tryDelete]
    | succ m =>
      have hm : m < rest.length := by
        simpa using Nat.lt_of_succ_lt_succ h
      have hdel : deleteBySelf (d :: rest) d.self = rest := by simp [deleteBySelf]
      have harith : deleted + 1 + m = deleted + (m + 1) := by omega
      simp only [tryDelete, Nat.succ_ne_zero, if_false, hdel, Nat.add_sub_cancel]
      rw [ih (deleted + 1) m hm]
      simp [List.drop_succ_cons, harith]

/-! ### Claims -/

/-- Claim C1 (code-bug evidence): `updateFunc`'s `$pop` ignores the
configured delta. Running `{$pop:{tags:-1}}` on the document holding
`tags = ["a","b","c"]` removes the LAST element (result `["a","b"]`),
although the function's own doc comment, the spec, and the sibling
`updateProc` implementation inside BulkDeleteStoredProcedure.ts (modelled
by `popLoopLegacy`, which yields `["b","c"]`) all remove the first
element for a negative delta. -/
theorem c1_pop_ignores_delta :
    (updateFunc store1 "1" (some cmdsPopNeg)).result
      = Except.ok ⟨"selfA", [("id", Value.str "1"), ("key", Value.str "test"),
          ("tags", Value.arr [Value.str "a", Value.str "b"]), ("_etag", Value.str "etag2")]⟩
    ∧ popLoopLegacy [("tags", Value.num (-1))] docABC.fields
      = Except.ok [("id", Value.str "1"), ("key", Value.str "test"),
          ("tags", Value.arr [Value.str "b", Value.str "c"])] :=
  ⟨rfl, rfl⟩

/-- Claim C2: whenever the `$unshift` group maps a field holding an array
to a value `v`, the operator prepends exactly `v` to the front of that
field's array. -/
theorem c2_unshift_prepends (g : Fields) (d d' : Fields) (f : String) (v : Value)
    (xs : List Value)
    (hnd : (g.map Prod.fst).Nodup) (hmem : (f, v) ∈ g)
    (hf : getField d f = some (Value.arr xs))
    (h : unshiftOp d (some g) = Except.ok d') :
    getField d' f = some (Value.arr (v :: xs)) :=
  unshiftLoop_mem g d d' f v xs hnd hmem hf h

/-- Witness for C2: the spec's example `{$unshift:{tags:"z"}}` on
`["b","c"]` yields `["z","b","c"]`. -/
theorem c2_unshift_prepends_witness :
    getField [("tags", Value.arr [Value.str "z", Value.str "b", Value.str "c"])] "tags"
      = some (Value.arr (Value.str "z" :: [Value.str "b", Value.str "c"])) :=
  c2_unshift_prepends [("tags", Value.str "z")]
    [("tags", Value.arr [Value.str "b", Value.str "c"])]
    [("tags", Value.arr [Value.str "z", Value.str "b", Value.str "c"])]
    "tags" (Value.str "z") [Value.str "b", Value.str "c"]
    (by simp) (List.mem_singleton.mpr rfl) rfl rfl

/-- Claim C3: when the document exists, all operator preconditions hold
and the store accepts the conditional replace, `updateFunc` returns the
pre-update document with the operator groups applied in the fixed order
`$set`, then `$pop`, then `$push`, then `$unshift` (so `$set` may create
the array fields a later operator acts upon), stamped with the fresh
version token. -/
theorem c3_operator_order (s : UpdateStore) (i : String) (c : UpdateCommands)
    (d : Doc) (rest : List Doc) (f2 f3 f4 : Fields)
    (hi : i ≠ "") (hqa : s.queryAccepted = true) (hqe : s.queryError = false)
    (hrows : (firstPage s).rows = d :: rest)
    (h2 : popOp (setOp d.fields c.setCmd) c.popCmd = Except.ok f2)
    (h3 : pushOp f2 c.pushCmd = Except.ok f3)
    (h4 : unshiftOp f3 c.unshiftCmd = Except.ok f4)
    (hra : s.replaceAccepted = true) (hre : s.replaceError = false) :
    (updateFunc s i (some c)).result = Except.ok (bump s d.self f4) := by
  have ha : applyOperators d.fields c = Except.ok f4 :=
    (applyOperators_ok_iff d.fields c f4).mpr ⟨f2, f3, h2, h3, h4⟩
  rw [updateFunc_query_ok s i c d rest hi hqa hqe hrows,
    tryUpdate_ok s c d f4 ha hra hre]

/-- Witness for C3: on a document without a `tags` field, the command set
`{$set:{tags:[]}, $push:{tags:"c"}}` succeeds because `$set` runs first
and creates the array that `$push` then appends to. -/
theorem c3_operator_order_witness :
    (updateFunc store3 "2" (some cmdsSetThenPush)).result
      = Except.ok (bump store3 "selfB"
          [("id", Value.str "2"), ("key", Value.str "k2"),
           ("tags", Value.arr [Value.str "c"])]) :=
  c3_operator_order store3 "2" cmdsSetThenPush docNoTags []
    [("id", Value.str "2"), ("key", Value.str "k2"), ("tags", Value.arr [])]
    [("id", Value.str "2"), ("key", Value.str "k2"), ("tags", Value.arr [Value.str "c"])]
    [("id", Value.str "2"), ("key", Value.str "k2"), ("tags", Value.arr [Value.str "c"])]
    (by decide) rfl rfl rfl rfl rfl rfl rfl rfl

/-- Claim C4 (counterexample): when the id-query's first page has zero
rows but carries a continuation token, `updateFunc` does NOT repeat the
query with that cursor: it fails with the not-found error even though the
next page holds the document. -/
theorem c4_counterexample :
    (updateFunc store4 "1" (some noCmds)).result = Except.error UpdateError.notFound
    ∧ (firstPage store4).rows = [] ∧ (firstPage store4).continuation = some "tok"
    ∧ store4.pages.getD 1 ⟨[], none⟩ = ⟨[docABC], none⟩ :=
  ⟨rfl, rfl, rfl, rfl⟩

/-- Claim C4 (amended): `updateFunc` consults only the first page of the
id query. A first page with zero rows fails with a not-found error
immediately, whether or not a continuation cursor remains, and the
procedure terminates; a successful result always comes from a genuine
first-page row — never a fabricated document. -/
theorem c4_first_page_only (s : UpdateStore) (i : String) (c : UpdateCommands)
    (hi : i ≠ "") (hqa : s.queryAccepted = true) (hqe : s.queryError = false) :
    ((firstPage s).rows = [] →
      (updateFunc s i (some c)).result = Except.error UpdateError.notFound)
    ∧ (∀ nd, (updateFunc s i (some c)).result = Except.ok nd →
        ∃ d rest nf, (firstPage s).rows = d :: rest ∧
          applyOperators d.fields c = Except.ok nf ∧ nd = bump s d.self nf) := by
  constructor
  · intro hrows
    simp [updateFunc, hi, hqa, hqe, hrows]
  · intro nd h
    rcases hrows : (firstPage s).rows with _ | ⟨d, rest⟩
    · simp [updateFunc, hi, hqa, hqe, hrows] at h
    · obtain ⟨nf, ha, hnd, _⟩ := updateFunc_ok_inv s i c d rest nd hi hqa hqe hrows h
      exact ⟨d, rest, nf, by simp [hrows], ha, hnd⟩

/-- Witness for the amended C4 at a concrete store whose first page is
empty with a continuation token. -/
theorem c4_first_page_only_witness :
    (((firstPage store4).rows = [] →
      (updateFunc store4 "1" (some noCmds)).result = Except.error UpdateError.notFound)
    ∧ (∀ nd, (updateFunc store4 "1" (some noCmds)).result = Except.ok nd →
        ∃ d rest nf, (firstPage store4).rows = d :: rest ∧
          applyOperators d.fields noCmds = Except.ok nf ∧ nd = bump store4 d.self nf)) :=
  c4_first_page_only store4 "1" noCmds (by decide) rfl rfl

/-- Claim C5: (1) when `$pop`, `$push` or `$unshift` targets a field that
is absent or not array-typed after `$set` has been applied, the
invocation fails with an operator-type error; (2) on this and every other
failure path the collection is left unmodified; (3) on success exactly
one document — the one that was read — is rewritten. -/
theorem c5_failure_isolation :
    (∀ (s : UpdateStore) (i : String) (c : UpdateCommands) (d : Doc)
      (rest : List Doc) (f : String),
      i ≠ "" → s.queryAccepted = true → s.queryError = false →
      (firstPage s).rows = d :: rest →
      f ∈ groupKeys c.popCmd ++ groupKeys c.pushCmd ++ groupKeys c.unshiftCmd →
      isArray (getField (setOp d.fields c.setCmd) f) = false →
      ∃ msg, (updateFunc s i (some c)).result = Except.error (UpdateError.opError msg))
    ∧ (∀ (s : UpdateStore) (i : String) (cmds : Option UpdateCommands) (e : UpdateError),
        (updateFunc s i cmds).result = Except.error e →
        (updateFunc s i cmds).col = s.col)
    ∧ (∀ (s : UpdateStore) (i : String) (c : UpdateCommands) (d : Doc)
        (rest : List Doc) (nd : Doc),
        i ≠ "" → s.queryAccepted = true → s.queryError = false →
        (firstPage s).rows = d :: rest → d.self ∈ s.col.map Doc.self →
        (updateFunc s i (some c)).result = Except.ok nd →
        ∃ pre old post, s.col = pre ++ old :: post ∧ old.self = d.self ∧
          (updateFunc s i (some c)).col = pre ++ nd :: post) := by
  refine ⟨?_, ?_, ?_⟩
  · intro s i c d rest f hi hqa hqe hrows hmem hna
    obtain ⟨msg, herr⟩ := applyOperators_error_of_nonarray d.fields c f hmem hna
    refine ⟨msg, ?_⟩
    rw [updateFunc_query_ok s i c d rest hi hqa hqe hrows]
    simp [tryUpdate, herr]
  · intro s i cmds e h
    exact updateFunc_error_col s i cmds e h
  · intro s i c d rest nd hi hqa hqe hrows hself h
    obtain ⟨nf, ha, hnd, hcol⟩ := updateFunc_ok_inv s i c d rest nd hi hqa hqe hrows h
    obtain ⟨pre, old, post, he, holdself, _, hrep⟩ :=
      replaceBySelf_split s.col d.self nd hself
    exact ⟨pre, old, post, he, holdself, by rw [hcol, hrep]⟩

/-- Witness for C5: `{$push:{key:"x"}}` on a string-valued field fails
with the operator error and leaves the collection unchanged, while the
successful `{$push:{tags:"d"}}` rewrites exactly the one stored
document. -/
theorem c5_failure_isolation_witness :
    (∃ msg, (updateFunc store1 "1" (some cmdsPushKey)).result
      = Except.error (UpdateError.opError msg))
    ∧ (updateFunc store1 "1" (some cmdsPushKey)).col = store1.col
    ∧ ∃ pre old post, store1.col = pre ++ old :: post ∧ old.self = docABC.self ∧
        (updateFunc store1 "1" (some cmdsPushTags)).col = pre ++ docABCPushed :: post :=
  ⟨c5_failure_isolation.1 store1 "1" cmdsPushKey docABC [] "key"
      (by decide) rfl rfl rfl (by simp [groupKeys, cmdsPushKey]) rfl,
   c5_failure_isolation.2.1 store1 "1" (some cmdsPushKey)
      (UpdateError.opError "Bad $push parameter - field in document must be an array.") rfl,
   c5_failure_isolation.2.2 store1 "1" cmdsPushTags docABC [] docABCPushed
      (by decide) rfl rfl rfl (by simp [store1, okStore, docABC]) rfl⟩

/-- Claim C6 (code-bug evidence): `bulkDelete` on an empty collection
does set the response body to `{deleted: 0}`, but on a non-empty
collection that is fully drained within budget it never sets the
response body at all (`tryDelete` with an exhausted queue neither
re-queries nor reports), so the claimed `{deleted: N}` response is never
produced. -/
theorem c6_bulk_no_success_response :
    bulkDelete ([] : List Doc) 10 = ⟨[], 0, some 0⟩
    ∧ bulkDelete bulkDocs 10 = ⟨[], 3, none⟩ :=
  ⟨rfl, rfl⟩

/-- Claim C7: when the execution budget runs out at the query step or at
a per-document delete step, `bulkDelete` stops and sets the response body
to the count of deletions completed so far — even with documents from the
current page still queued undeleted — rather than failing. -/
theorem c7_budget_partial_count (col : List Doc) (budget : Nat)
    (h : budget ≤ col.length) :
    bulkDelete col budget
      = ⟨col.drop (budget - 1), budget - 1, some (budget - 1)⟩ := by
  cases budget with
  | zero => simp [bulkDelete, tryQueryAndDelete]
  | succ m =>
    rcases col with _ | ⟨d, rest⟩
    · simp at h
    · have hm : m < (d :: rest).length := by
        simp only [List.length_cons] at h ⊢
        omega
      simp only [bulkDelete, tryQueryAndDelete, Nat.succ_ne_zero, if_false,
        Nat.add_sub_cancel]
      rw [tryDelete_budget (d :: rest) 0 m hm]
      simp

/-- Witness for C7: three documents, budget 2 (one query + one delete):
one deletion completes, the response reports 1, two documents remain. -/
theorem c7_budget_partial_count_witness :
    bulkDelete bulkDocs 2 = ⟨bulkDocs.drop 1, 1, some 1⟩ :=
  c7_budget_partial_count bulkDocs 2 (by decide)

/-- Claim C8: an empty (JavaScript-falsy) id or an absent command set
fails immediately with the validation error, with the collection
untouched and zero store calls issued. -/
theorem c8_validation_before_io (s : UpdateStore) (i : String)
    (cmds : Option UpdateCommands) (h : i = "" ∨ cmds = none) :
    updateFunc s i cmds = ⟨Except.error UpdateError.validation, s.col, []⟩ := by
  rcases h with h | h
  · simp [updateFunc, h]
  · subst h
    by_cases hi : i = ""
    · simp [updateFunc, hi]
    · simp [updateFunc, hi]

/-- Witness for C8 at a concrete store and empty id. -/
theorem c8_validation_before_io_witness :
    updateFunc store1 "" (some noCmds)
      = ⟨Except.error UpdateError.validation, store1.col, []⟩ :=
  c8_validation_before_io store1 "" (some noCmds) (Or.inl rfl)

/-- Claim C9 (frame): on a successful update, every field whose name is a
key of none of the four operator groups — excluding the store-managed
version token `_etag` — has the same value in the returned document as in
the pre-update document. -/
theorem c9_frame (s : UpdateStore) (i : String) (c : UpdateCommands)
    (d : Doc) (rest : List Doc) (nd : Doc) (f : String)
    (hi : i ≠ "") (hqa : s.queryAccepted = true) (hqe : s.queryError = false)
    (hrows : (firstPage s).rows = d :: rest)
    (h : (updateFunc s i (some c)).result = Except.ok nd)
    (hset : f ∉ groupKeys c.setCmd) (hpop : f ∉ groupKeys c.popCmd)
    (hpush : f ∉ groupKeys c.pushCmd) (hunshift : f ∉ groupKeys c.unshiftCmd)
    (hetag : f ≠ "_etag") :
    getField nd.fields f = getField d.fields f := by
  obtain ⟨nf, ha, hnd, _⟩ := updateFunc_ok_inv s i c d rest nd hi hqa hqe hrows h
  obtain ⟨f2, f3, h2, h3, h4⟩ := (applyOperators_ok_iff d.fields c nf).mp ha
  have e1 : getField (setOp d.fields c.setCmd) f = getField d.fields f := by
    cases hc : c.setCmd with
    | none => rfl
    | some g =>
      exact setLoop_preserve g f d.fields (by simpa [groupKeys, hc] using hset)
  have e2 : getField f2 f = getField (setOp d.fields c.setCmd) f := by
    cases hc : c.popCmd with
    | none =>
      rw [hc] at h2
      simp only [popOp] at h2
      cases h2; rfl
    | some g =>
      rw [hc] at h2
      simp only [popOp] at h2
      exact popLoop_preserve g f _ _ h2 (by simpa [groupKeys, hc] using hpop)
  have e3 : getField f3 f = getField f2 f := by
    cases hc : c.pushCmd with
    | none =>
      rw [hc] at h3
      simp only [pushOp] at h3
      cases h3; rfl
    | some g =>
      rw [hc] at h3
      simp only [pushOp] at h3
      exact pushLoop_preserve g f _ _ h3 (by simpa [groupKeys, hc] using hpush)
  have e4 : getField nf f = getField f3 f := by
    cases hc : c.unshiftCmd with
    | none =>
      rw [hc] at h4
      simp only [unshiftOp] at h4
      cases h4; rfl
    | some g =>
      rw [hc] at h4
      simp only [unshiftOp] at h4
      exact unshiftLoop_preserve g f _ _ h4 (by simpa [groupKeys, hc] using hunshift)
  have e5 : getField nd.fields f = getField nf f := by
    rw [hnd]
    exact getField_setField_ne nf "_etag" f s.newEtag hetag
  rw [e5, e4, e3, e2, e1]

/-- Witness for C9: after `{$push:{tags:"d"}}` on the example document,
the untouched field `key` is unchanged. -/
theorem c9_frame_witness :
    getField docABCPushed.fields "key" = getField docABC.fields "key" :=
  c9_frame store1 "1" cmdsPushTags docABC [] docABCPushed "key"
    (by decide) rfl rfl rfl rfl
    (by simp [groupKeys, cmdsPushTags])
    (by simp [groupKeys, cmdsPushTags])
    (by simp [groupKeys, cmdsPushTags])
    (by simp [groupKeys, cmdsPushTags])
    (by decide)

/-- Claim C10: `$pop` on a field holding an empty array does not fail:
removing from an empty array is a no-op, so the update succeeds and the
field remains an empty array, regardless of the sign (indeed the value)
of the configured delta. -/
theorem c10_pop_empty_array (s : UpdateStore) (i : String) (f : String)
    (delta : Value) (d : Doc) (rest : List Doc)
    (hi : i ≠ "") (hqa : s.queryAccepted = true) (hqe : s.queryError = false)
    (hrows : (firstPage s).rows = d :: rest)
    (hf : getField d.fields f = some (Value.arr []))
    (hra : s.replaceAccepted = true) (hre : s.replaceError = false)
    (hetag : f ≠ "_etag") :
    (updateFunc s i (some ⟨none, some [(f, delta)], none, none⟩)).result
      = Except.ok (bump s d.self (setField d.fields f (Value.arr [])))
    ∧ getField (bump s d.self (setField d.fields f (Value.arr []))).fields f
      = some (Value.arr []) := by
  constructor
  · have h2 : popOp (setOp d.fields none) (some [(f, delta)])
        = Except.ok (setField d.fields f (Value.arr [])) := by
      simp [setOp, popOp, popLoop, hf]
    have ha : applyOperators d.fields ⟨none, some [(f, delta)], none, none⟩
        = Except.ok (setField d.fields f (Value.arr [])) :=
      (applyOperators_ok_iff d.fields _ _).mpr ⟨_, _, h2, rfl, rfl⟩
    rw [updateFunc_query_ok s i _ d rest hi hqa hqe hrows,
      tryUpdate_ok s _ d _ ha hra hre]
  · show getField (setField (setField d.fields f (Value.arr [])) "_etag" s.newEtag) f
      = some (Value.arr [])
    rw [getField_setField_ne _ _ _ _ hetag, getField_setField_self]

/-- Witness for C10 with a negative delta on an empty `tags` array. -/
theorem c10_pop_empty_array_witness :
    ((updateFunc storeEmptyTags "3"
        (some ⟨none, some [("tags", Value.num (-1))], none, none⟩)).result
      = Except.ok (bump storeEmptyTags "selfC"
          (setField docEmptyTags.fields "tags" (Value.arr [])))
    ∧ getField (bump storeEmptyTags "selfC"
          (setField docEmptyTags.fields "tags" (Value.arr []))).fields "tags"
      = some (Value.arr [])) :=
  c10_pop_empty_array storeEmptyTags "3" "tags" (Value.num (-1)) docEmptyTags []
    (by decide) rfl rfl rfl rfl rfl rfl (by decide)

end DocDb
